import Mathlib

/-!
Verification of the safetensors C++ binding layer (`src/bindings/cpp`).

The repository under verification contains the marshalling glue between a
C++ host and the safetensors serialization engine:
`lib.rs` (ffi enums `CxxDtype`, `CxxSafeTensorError`, the view type
`CxxTensorView`, `make_tensor_view`, `prepare`, `convert_to_hashmap_string`,
`serialize`, and the dtype/error conversion tables) and `conversion.rs`
(an alternative set of conversion tables for an ffi module whose enums are
named `Dtype`/`SafeTensorError` on the host side).

The engine itself (the `safetensors` crate: `Dtype`, `TensorView::new`,
`tensor::serialize`) is not part of the repository's sources; those
definitions are modelled from the specification and are marked
`Modelled from the spec:` in their doc comments.

Machine integers (`usize`, 64-bit) are embedded as `Nat` with explicit
reduction modulo `2 ^ 64` exactly where the Rust code performs wrapping
arithmetic; fallible code is embedded in `Except`; a Rust `panic!`
(`expect`) is embedded as the exceptional outcome carrying the error that
was unwrapped.
-/

namespace SafetensorsCpp

/-- Modelled from the spec: the engine-side dtype enumeration of the
safetensors crate (the Dtype Registry).  The 19 variants and their order
mirror the host-side `CxxDtype` declaration, as required by the spec's
"exhaustive, order-preserving bijection" boundary contract. -/
inductive Dtype where
  | BOOL
  | F4
  | F6_E2M3
  | F6_E3M2
  | U8
  | I8
  | F8_E5M2
  | F8_E4M3
  | F8_E8M0
  | I16
  | U16
  | F16
  | BF16
  | I32
  | U32
  | F32
  | F64
  | I64
  | U64
  deriving DecidableEq, Repr, Fintype

/-- The host-side dtype enumeration declared in `lib.rs` (ffi module),
in its declared source order. -/
inductive CxxDtype where
  | BOOL
  | F4
  | F6_E2M3
  | F6_E3M2
  | U8
  | I8
  | F8_E5M2
  | F8_E4M3
  | F8_E8M0
  | I16
  | U16
  | F16
  | BF16
  | I32
  | U32
  | F32
  | F64
  | I64
  | U64
  deriving DecidableEq, Repr, Fintype

/-- The host-side dtype enumeration used by `conversion.rs` (its ffi
module names it `Dtype`); its variants are the ones named by the match
arms of the conversion tables in `conversion.rs`. -/
inductive ConvDtype where
  | BOOL
  | F4
  | F6_E2M3
  | F6_E3M2
  | U8
  | I8
  | F8_E5M2
  | F8_E4M3
  | F8_E8M0
  | I16
  | U16
  | F16
  | BF16
  | I32
  | U32
  | F32
  | F64
  | I64
  | U64
  deriving DecidableEq, Repr, Fintype

/-- Ordinal of a `CxxDtype` variant in its declared source order
(`lib.rs`, the enum is declared "in increasing alignment order"). -/
def CxxDtype.ordinal : CxxDtype → Nat
  | .BOOL => 0
  | .F4 => 1
  | .F6_E2M3 => 2
  | .F6_E3M2 => 3
  | .U8 => 4
  | .I8 => 5
  | .F8_E5M2 => 6
  | .F8_E4M3 => 7
  | .F8_E8M0 => 8
  | .I16 => 9
  | .U16 => 10
  | .F16 => 11
  | .BF16 => 12
  | .I32 => 13
  | .U32 => 14
  | .F32 => 15
  | .F64 => 16
  | .I64 => 17
  | .U64 => 18

/-- Modelled from the spec: ordinal of an engine-side `Dtype` variant in
its declared order. -/
def Dtype.ordinal : Dtype → Nat
  | .BOOL => 0
  | .F4 => 1
  | .F6_E2M3 => 2
  | .F6_E3M2 => 3
  | .U8 => 4
  | .I8 => 5
  | .F8_E5M2 => 6
  | .F8_E4M3 => 7
  | .F8_E8M0 => 8
  | .I16 => 9
  | .U16 => 10
  | .F16 => 11
  | .BF16 => 12
  | .I32 => 13
  | .U32 => 14
  | .F32 => 15
  | .F64 => 16
  | .I64 => 17
  | .U64 => 18

/-- Modelled from the spec: the bit width of one element of each dtype
(sub-byte formats 4 and 6 bits; all others a whole number of bytes). -/
def Dtype.bitSize : Dtype → Nat
  | .F4 => 4
  | .F6_E2M3 => 6
  | .F6_E3M2 => 6
  | .BOOL => 8
  | .U8 => 8
  | .I8 => 8
  | .F8_E5M2 => 8
  | .F8_E4M3 => 8
  | .F8_E8M0 => 8
  | .I16 => 16
  | .U16 => 16
  | .F16 => 16
  | .BF16 => 16
  | .I32 => 32
  | .U32 => 32
  | .F32 => 32
  | .F64 => 64
  | .I64 => 64
  | .U64 => 64

/-- Modelled from the spec: the per-element byte size `Dtype::size()` of
the engine crate, used by `prepare` in `lib.rs`.  The spec defines
`byte_size` only for byte-granular dtypes (sub-byte dtypes expose a bit
width instead); a single total function is modelled as the ceiling byte
count of one element's bit width. -/
def Dtype.size (d : Dtype) : Nat :=
  (d.bitSize + 7) / 8

/-- Modelled from the spec: the required memory alignment, in bytes, of
one element of each host-side dtype (1-byte-or-less formats, then 2-, 4-
and 8-byte formats). -/
def CxxDtype.alignment : CxxDtype → Nat
  | .BOOL => 1
  | .F4 => 1
  | .F6_E2M3 => 1
  | .F6_E3M2 => 1
  | .U8 => 1
  | .I8 => 1
  | .F8_E5M2 => 1
  | .F8_E4M3 => 1
  | .F8_E8M0 => 1
  | .I16 => 2
  | .U16 => 2
  | .F16 => 2
  | .BF16 => 2
  | .I32 => 4
  | .U32 => 4
  | .F32 => 4
  | .F64 => 8
  | .I64 => 8
  | .U64 => 8

/-- Constructor name of a `CxxDtype` variant. -/
def CxxDtype.name : CxxDtype → String
  | .BOOL => "BOOL"
  | .F4 => "F4"
  | .F6_E2M3 => "F6_E2M3"
  | .F6_E3M2 => "F6_E3M2"
  | .U8 => "U8"
  | .I8 => "I8"
  | .F8_E5M2 => "F8_E5M2"
  | .F8_E4M3 => "F8_E4M3"
  | .F8_E8M0 => "F8_E8M0"
  | .I16 => "I16"
  | .U16 => "U16"
  | .F16 => "F16"
  | .BF16 => "BF16"
  | .I32 => "I32"
  | .U32 => "U32"
  | .F32 => "F32"
  | .F64 => "F64"
  | .I64 => "I64"
  | .U64 => "U64"

/-- Constructor name of a `ConvDtype` variant. -/
def ConvDtype.name : ConvDtype → String
  | .BOOL => "BOOL"
  | .F4 => "F4"
  | .F6_E2M3 => "F6_E2M3"
  | .F6_E3M2 => "F6_E3M2"
  | .U8 => "U8"
  | .I8 => "I8"
  | .F8_E5M2 => "F8_E5M2"
  | .F8_E4M3 => "F8_E4M3"
  | .F8_E8M0 => "F8_E8M0"
  | .I16 => "I16"
  | .U16 => "U16"
  | .F16 => "F16"
  | .BF16 => "BF16"
  | .I32 => "I32"
  | .U32 => "U32"
  | .F32 => "F32"
  | .F64 => "F64"
  | .I64 => "I64"
  | .U64 => "U64"

/-- Constructor name of an engine-side `Dtype` variant (also the string
the engine writes into the JSON header's `dtype` field). -/
def Dtype.name : Dtype → String
  | .BOOL => "BOOL"
  | .F4 => "F4"
  | .F6_E2M3 => "F6_E2M3"
  | .F6_E3M2 => "F6_E3M2"
  | .U8 => "U8"
  | .I8 => "I8"
  | .F8_E5M2 => "F8_E5M2"
  | .F8_E4M3 => "F8_E4M3"
  | .F8_E8M0 => "F8_E8M0"
  | .I16 => "I16"
  | .U16 => "U16"
  | .F16 => "F16"
  | .BF16 => "BF16"
  | .I32 => "I32"
  | .U32 => "U32"
  | .F32 => "F32"
  | .F64 => "F64"
  | .I64 => "I64"
  | .U64 => "U64"

/-- `impl From<CxxDtype> for Dtype` (`lib.rs` lines 259-284): host-to-engine
dtype conversion over the 19 declared variants. -/
def dtypeOfCxx : CxxDtype → Dtype
  | .BOOL => .BOOL
  | .F4 => .F4
  | .F6_E2M3 => .F6_E2M3
  | .F6_E3M2 => .F6_E3M2
  | .U8 => .U8
  | .I8 => .I8
  | .F8_E5M2 => .F8_E5M2
  | .F8_E4M3 => .F8_E4M3
  | .F8_E8M0 => .F8_E8M0
  | .I16 => .I16
  | .U16 => .U16
  | .F16 => .F16
  | .BF16 => .BF16
  | .I32 => .I32
  | .U32 => .U32
  | .F32 => .F32
  | .F64 => .F64
  | .I64 => .I64
  | .U64 => .U64

/-- `impl From<Dtype> for CxxDtype` (`lib.rs` lines 287-311): engine-to-host
dtype conversion. -/
def cxxOfDtype : Dtype → CxxDtype
  | .BOOL => .BOOL
  | .F4 => .F4
  | .F6_E2M3 => .F6_E2M3
  | .F6_E3M2 => .F6_E3M2
  | .U8 => .U8
  | .I8 => .I8
  | .F8_E5M2 => .F8_E5M2
  | .F8_E4M3 => .F8_E4M3
  | .F8_E8M0 => .F8_E8M0
  | .I16 => .I16
  | .U16 => .U16
  | .F16 => .F16
  | .BF16 => .BF16
  | .I32 => .I32
  | .U32 => .U32
  | .F32 => .F32
  | .F64 => .F64
  | .I64 => .I64
  | .U64 => .U64

/-- `impl Into<Dtype> for RDtype` (`conversion.rs` lines 42-67):
engine-to-host dtype conversion of the alternative binding module. -/
def convOfDtype : Dtype → ConvDtype
  | .BOOL => .BOOL
  | .F4 => .F4
  | .F6_E2M3 => .F6_E2M3
  | .F6_E3M2 => .F6_E3M2
  | .U8 => .U8
  | .I8 => .I8
  | .F8_E5M2 => .F8_E5M2
  | .F8_E4M3 => .F8_E4M3
  | .F8_E8M0 => .F8_E8M0
  | .I16 => .I16
  | .U16 => .U16
  | .F16 => .F16
  | .BF16 => .BF16
  | .I32 => .I32
  | .U32 => .U32
  | .F32 => .F32
  | .F64 => .F64
  | .I64 => .I64
  | .U64 => .U64

/-- The engine-side error type of the safetensors crate.  The variant
set and which variants carry a payload are fixed by the match patterns of
the conversion tables in `lib.rs` and `conversion.rs`; payload types are
modelled as plain data since the conversions discard them. -/
inductive SafeTensorError where
  | InvalidHeader (payload : List Nat)
  | InvalidHeaderStart
  | InvalidHeaderDeserialization (payload : String)
  | HeaderTooLarge
  | HeaderTooSmall
  | InvalidHeaderLength
  | TensorNotFound (name : String)
  | TensorInvalidInfo
  | InvalidOffset (name : String)
  | IoError (payload : String)
  | JsonError (payload : String)
  | InvalidTensorView (dtype : Dtype) (shape : List Nat) (len : Nat)
  | MetadataIncompleteBuffer
  | ValidationOverflow
  | MisalignedSlice
  deriving DecidableEq, Repr

/-- The host-side error enumeration `CxxSafeTensorError` declared in
`lib.rs` (payload-free). -/
inductive CxxSafeTensorError where
  | InvalidHeader
  | InvalidHeaderStart
  | InvalidHeaderDeserialization
  | HeaderTooLarge
  | HeaderTooSmall
  | InvalidHeaderLength
  | TensorNotFound
  | TensorInvalidInfo
  | InvalidOffset
  | IoError
  | JsonError
  | InvalidTensorView
  | MetadataIncompleteBuffer
  | ValidationOverflow
  | MisalignedSlice
  deriving DecidableEq, Repr, Fintype

/-- The host-side error enumeration used by `conversion.rs` (its ffi
module names it `SafeTensorError`; payload-free). -/
inductive ConvSafeTensorError where
  | InvalidHeader
  | InvalidHeaderStart
  | InvalidHeaderDeserialization
  | HeaderTooLarge
  | HeaderTooSmall
  | InvalidHeaderLength
  | TensorNotFound
  | TensorInvalidInfo
  | InvalidOffset
  | IoError
  | JsonError
  | InvalidTensorView
  | MetadataIncompleteBuffer
  | ValidationOverflow
  | MisalignedSlice
  deriving DecidableEq, Repr, Fintype

/-- Constructor name of a `CxxSafeTensorError` variant. -/
def CxxSafeTensorError.name : CxxSafeTensorError → String
  | .InvalidHeader => "InvalidHeader"
  | .InvalidHeaderStart => "InvalidHeaderStart"
  | .InvalidHeaderDeserialization => "InvalidHeaderDeserialization"
  | .HeaderTooLarge => "HeaderTooLarge"
  | .HeaderTooSmall => "HeaderTooSmall"
  | .InvalidHeaderLength => "InvalidHeaderLength"
  | .TensorNotFound => "TensorNotFound"
  | .TensorInvalidInfo => "TensorInvalidInfo"
  | .InvalidOffset => "InvalidOffset"
  | .IoError => "IoError"
  | .JsonError => "JsonError"
  | .InvalidTensorView => "InvalidTensorView"
  | .MetadataIncompleteBuffer => "MetadataIncompleteBuffer"
  | .ValidationOverflow => "ValidationOverflow"
  | .MisalignedSlice => "MisalignedSlice"

/-- Constructor name of a `ConvSafeTensorError` variant. -/
def ConvSafeTensorError.name : ConvSafeTensorError → String
  | .InvalidHeader => "InvalidHeader"
  | .InvalidHeaderStart => "InvalidHeaderStart"
  | .InvalidHeaderDeserialization => "InvalidHeaderDeserialization"
  | .HeaderTooLarge => "HeaderTooLarge"
  | .HeaderTooSmall => "HeaderTooSmall"
  | .InvalidHeaderLength => "InvalidHeaderLength"
  | .TensorNotFound => "TensorNotFound"
  | .TensorInvalidInfo => "TensorInvalidInfo"
  | .InvalidOffset => "InvalidOffset"
  | .IoError => "IoError"
  | .JsonError => "JsonError"
  | .InvalidTensorView => "InvalidTensorView"
  | .MetadataIncompleteBuffer => "MetadataIncompleteBuffer"
  | .ValidationOverflow => "ValidationOverflow"
  | .MisalignedSlice => "MisalignedSlice"

/-- `impl Into<CxxSafeTensorError> for SafeTensorError` (`lib.rs` lines
235-257): engine-to-host error-kind translation, discarding payloads. -/
def cxxOfError : SafeTensorError → CxxSafeTensorError
  | .InvalidHeader _ => .InvalidHeader
  | .InvalidHeaderStart => .InvalidHeaderStart
  | .InvalidHeaderDeserialization _ => .InvalidHeaderDeserialization
  | .HeaderTooLarge => .HeaderTooLarge
  | .HeaderTooSmall => .HeaderTooSmall
  | .InvalidHeaderLength => .InvalidHeaderLength
  | .TensorNotFound _ => .TensorNotFound
  | .TensorInvalidInfo => .TensorInvalidInfo
  | .InvalidOffset _ => .InvalidOffset
  | .IoError _ => .IoError
  | .JsonError _ => .JsonError
  | .InvalidTensorView _ _ _ => .InvalidTensorView
  | .MetadataIncompleteBuffer => .MetadataIncompleteBuffer
  | .ValidationOverflow => .ValidationOverflow
  | .MisalignedSlice => .MisalignedSlice

/-- `impl Into<SafeTensorError> for RSafeTensorError` (`conversion.rs`
lines 18-40): engine-to-host error-kind translation of the alternative
binding module, discarding payloads. -/
def convOfError : SafeTensorError → ConvSafeTensorError
  | .InvalidHeader _ => .InvalidHeader
  | .InvalidHeaderStart => .InvalidHeaderStart
  | .InvalidHeaderDeserialization _ => .InvalidHeaderDeserialization
  | .HeaderTooLarge => .HeaderTooLarge
  | .HeaderTooSmall => .HeaderTooSmall
  | .InvalidHeaderLength => .InvalidHeaderLength
  | .TensorNotFound _ => .TensorNotFound
  | .TensorInvalidInfo => .TensorInvalidInfo
  | .InvalidOffset _ => .InvalidOffset
  | .IoError _ => .IoError
  | .JsonError _ => .JsonError
  | .InvalidTensorView _ _ _ => .InvalidTensorView
  | .MetadataIncompleteBuffer => .MetadataIncompleteBuffer
  | .ValidationOverflow => .ValidationOverflow
  | .MisalignedSlice => .MisalignedSlice

/-- Claim C8: the mapping between the host-side dtype enumeration
(`CxxDtype`) and the engine-side enumeration (`Dtype`) is an exhaustive,
order-preserving bijection over the 19 declared variants: converting any
declared `CxxDtype` variant to `Dtype` and back yields the same variant
(and conversely), and the conversion preserves the declared ordinal
order. -/
theorem c8_dtype_bijection_order_preserving :
    (∀ c : CxxDtype, cxxOfDtype (dtypeOfCxx c) = c) ∧
    (∀ d : Dtype, dtypeOfCxx (cxxOfDtype d) = d) ∧
    (∀ a b : CxxDtype,
      (CxxDtype.ordinal a ≤ CxxDtype.ordinal b) ↔
        (Dtype.ordinal (dtypeOfCxx a) ≤ Dtype.ordinal (dtypeOfCxx b))) := by
  refine ⟨?_, ?_, ?_⟩ <;> decide

/-- Claim C9: the declared order of the 19 `CxxDtype` variants is
non-decreasing in required memory alignment: `ordinal a ≤ ordinal b`
implies `alignment a ≤ alignment b`. -/
theorem c9_ordinal_monotone_alignment :
    ∀ a b : CxxDtype,
      CxxDtype.ordinal a ≤ CxxDtype.ordinal b →
        CxxDtype.alignment a ≤ CxxDtype.alignment b := by
  decide

/-- Claim C9, witness: a concrete instantiation of the alignment
monotonicity theorem. -/
theorem c9_ordinal_monotone_alignment_witness :
    CxxDtype.alignment .BOOL ≤ CxxDtype.alignment .U64 :=
  c9_ordinal_monotone_alignment .BOOL .U64 (by decide)

/-- Claim C10: the two independently written engine-to-host translation
tables agree: for every engine `Dtype` variant, the conversion of
`conversion.rs` yields the same-named host variant as the conversion of
`lib.rs`, and for every engine `SafeTensorError` variant the two
error-kind translations yield the same-named kind (both discard the
payload but never the kind). -/
theorem c10_conversion_tables_agree :
    (∀ d : Dtype, (convOfDtype d).name = (cxxOfDtype d).name) ∧
    (∀ e : SafeTensorError, (convOfError e).name = (cxxOfError e).name) := by
  constructor
  · decide
  · intro e
    cases e <;> rfl

/-- The modulus of the platform's `usize` arithmetic (64-bit). -/
def USIZE : Nat := 2 ^ 64

/-- The ffi struct `CxxTensorView` of `lib.rs`: a dtype, a shape and an
owned byte buffer (bytes embedded as `Nat`s). -/
structure CxxTensorView where
  shape_ : List Nat
  dtype_ : CxxDtype
  data_ : List Nat
  deriving DecidableEq, Repr

/-- Accessor `CxxTensorView::shape` of `lib.rs`. -/
def CxxTensorView.shape (v : CxxTensorView) : List Nat :=
  v.shape_

/-- Accessor `CxxTensorView::dtype` of `lib.rs`. -/
def CxxTensorView.dtype (v : CxxTensorView) : CxxDtype :=
  v.dtype_

/-- Accessor `CxxTensorView::data` of `lib.rs`. -/
def CxxTensorView.data (v : CxxTensorView) : List Nat :=
  v.data_

/-- Accessor `CxxTensorView::data_len` of `lib.rs`. -/
def CxxTensorView.data_len (v : CxxTensorView) : Nat :=
  v.data_.length

/-- The ffi struct `CxxStrTensorView` of `lib.rs`: a (name, view) pair. -/
structure CxxStrTensorView where
  key : String
  value : CxxTensorView
  deriving DecidableEq, Repr

/-- The ffi struct `CxxStrStr` of `lib.rs`: a (key, value) string pair. -/
structure CxxStrStr where
  key : String
  value : String
  deriving DecidableEq, Repr

/-- Modelled from the spec: checked (non-wrapping) `usize` multiplication;
`none` signals arithmetic overflow of the addressable integer range. -/
def checkedMul (a b : Nat) : Option Nat :=
  if a * b < USIZE then some (a * b) else none

/-- Modelled from the spec: `element_count(shape)`, the product of the
dimensions computed with a checked-multiply policy (fails on overflow). -/
def checkedProduct (shape : List Nat) : Option Nat :=
  shape.foldl (fun acc d => acc.bind fun a => checkedMul a d) (some 1)

/-- Modelled from the spec: the exact byte length required by a
(dtype, shape) pair: total bits = `element_count(shape) * bit_size(dtype)`,
required bytes = `ceil(total_bits / 8)`; `none` on arithmetic overflow. -/
def specRequiredBytes (d : Dtype) (shape : List Nat) : Option Nat :=
  (checkedProduct shape).bind fun n =>
    (checkedMul n d.bitSize).map fun bits => (bits + 7) / 8

/-- Modelled from the spec: the engine-side `TensorView` of the
safetensors crate (dtype, shape, byte buffer). -/
structure TensorView where
  dtype : Dtype
  shape : List Nat
  data : List Nat
  deriving DecidableEq, Repr

/-- Modelled from the spec: the engine constructor `TensorView::new`,
which validates `data.len()` against the exact required byte length
(ceiling-packed for sub-byte dtypes) and fails with `InvalidTensorView`
carrying (dtype, shape, actual length) on mismatch, or with
`ValidationOverflow` when the element count overflows. -/
def TensorView.new (dtype : Dtype) (shape : List Nat) (data : List Nat) :
    Except SafeTensorError TensorView :=
  match specRequiredBytes dtype shape with
  | none => .error .ValidationOverflow
  | some n =>
    if data.length = n then .ok ⟨dtype, shape, data⟩
    else .error (.InvalidTensorView dtype shape data.length)

/-- `make_tensor_view` (`lib.rs` lines 154-157): converts the dtype,
delegates to the engine constructor, and converts the result back to a
`CxxTensorView`; the Rust `expect` (panic on error) is embedded as the
exceptional outcome carrying the unwrapped error. -/
def make_tensor_view (dtype : CxxDtype) (shape : List Nat) (data : List Nat) :
    Except SafeTensorError CxxTensorView :=
  (TensorView.new (dtypeOfCxx dtype) shape data).map fun tv =>
    ⟨tv.shape, cxxOfDtype tv.dtype, tv.data⟩

/-- Wrapping `usize` multiplication, as performed by the unchecked `*`
and `product()` in `prepare` (`lib.rs` line 168). -/
def usizeMul (a b : Nat) : Nat :=
  a * b % USIZE

/-- `shape.iter().product::<usize>()` of `prepare`: the wrapping `usize`
product of the dimensions. -/
def rustProduct (shape : List Nat) : Nat :=
  shape.foldl usizeMul 1

/-- The length check performed by `prepare` (`lib.rs` line 168):
`data.len() == shape.iter().product::<usize>() * dtype.size()`, with
wrapping `usize` arithmetic. -/
def prepareCheck (v : CxxTensorView) : Bool :=
  v.data_len == usizeMul (rustProduct v.shape_) (dtypeOfCxx v.dtype_).size

/-- `HashMap::insert`: the hash map of `prepare` is embedded as an
association list whose entry order is immaterial (the consumer orders by
name); inserting replaces any previous binding of the key. -/
def insertAL {α : Type} (m : List (String × α)) (k : String) (v : α) :
    List (String × α) :=
  (k, v) :: m.filter fun p => !(p.1 == k)

/-- First-match lookup in an association list (the embedding of
`HashMap` access). -/
def lookupAL {α : Type} (k : String) : List (String × α) → Option α
  | [] => none
  | p :: rest => if p.1 = k then some p.2 else lookupAL k rest

/-- The loop body of `prepare` (`lib.rs` lines 164-176): check each view
fail-fast, then insert it under its name. -/
def prepareGo (m : List (String × CxxTensorView)) :
    List CxxStrTensorView →
      Except SafeTensorError (List (String × CxxTensorView))
  | [] => .ok m
  | t :: rest =>
    if prepareCheck t.value then prepareGo (insertAL m t.key t.value) rest
    else
      .error (.InvalidTensorView (dtypeOfCxx t.value.dtype_) t.value.shape_
        t.value.data_len)

/-- `prepare` (`lib.rs` lines 160-178): validates every (name, view) pair
and builds the name-to-view map. -/
def prepare (tensor_dict : List CxxStrTensorView) :
    Except SafeTensorError (List (String × CxxTensorView)) :=
  prepareGo [] tensor_dict

/-- The accumulator-passing form of the `prepare` loop. -/
def prepFold (m : List (String × CxxTensorView))
    (d : List CxxStrTensorView) : List (String × CxxTensorView) :=
  d.foldl (fun acc t => insertAL acc t.key t.value) m

/-- The view of the last entry carrying a given name, in input order. -/
def lastWith (name : String) : List CxxStrTensorView → Option CxxTensorView
  | [] => none
  | t :: rest =>
    match lastWith name rest with
    | some v => some v
    | none => if t.key == name then some t.value else none

theorem lookupAL_filter_ne {α : Type} (k k' : String) (hkk : k ≠ k')
    (m : List (String × α)) :
    lookupAL k (m.filter fun p => !(p.1 == k')) = lookupAL k m := by
  induction m with
  | nil => rfl
  | cons p rest ih =>
    by_cases hp' : p.1 = k'
    · have h1 : (!(p.1 == k')) = false := by simp [hp']
      have h2 : ¬ p.1 = k := by rw [hp']; exact fun hc => hkk hc.symm
      simp [List.filter_cons, h1, lookupAL, h2, ih]
    · have h1 : (!(p.1 == k')) = true := by simp [hp']
      by_cases hp : p.1 = k
      · simp [List.filter_cons, h1, lookupAL, hp, hkk]
      · simp [List.filter_cons, h1, lookupAL, hp, ih]

theorem lookupAL_insertAL {α : Type} (k k' : String) (v : α)
    (m : List (String × α)) :
    lookupAL k (insertAL m k' v) =
      if k' = k then some v else lookupAL k m := by
  by_cases h : k' = k
  · simp [insertAL, lookupAL, h]
  · have hk : k ≠ k' := fun hc => h hc.symm
    simp [insertAL, lookupAL, h, lookupAL_filter_ne k k' hk]

theorem prepareGo_ok (d : List CxxStrTensorView)
    (hvalid : ∀ t ∈ d, prepareCheck t.value = true) :
    ∀ m, prepareGo m d = .ok (prepFold m d) := by
  induction d with
  | nil => intro m; rfl
  | cons t rest ih =>
    intro m
    have ht : prepareCheck t.value = true := hvalid t (by simp)
    have hrest : ∀ t' ∈ rest, prepareCheck t'.value = true := by
      intro t' ht'; exact hvalid t' (by simp [ht'])
    simp [prepareGo, ht, prepFold, ih hrest]

theorem lookupAL_prepFold (d : List CxxStrTensorView) :
    ∀ (m : List (String × CxxTensorView)) (k : String),
      lookupAL k (prepFold m d) =
        match lastWith k d with
        | some v => some v
        | none => lookupAL k m := by
  induction d with
  | nil => intro m k; rfl
  | cons t rest ih =>
    intro m k
    have hstep : prepFold m (t :: rest) = prepFold (insertAL m t.key t.value) rest := rfl
    rw [hstep, ih]
    by_cases hl : (lastWith k rest).isSome
    · obtain ⟨v, hv⟩ := Option.isSome_iff_exists.mp hl
      simp [lastWith, hv]
    · have hnone : lastWith k rest = none := Option.not_isSome_iff_eq_none.mp hl
      by_cases hk : t.key = k
      · simp [lastWith, hnone, hk, lookupAL_insertAL]
      · have : ¬ (t.key == k) = true := by simp [hk]
        simp [lastWith, hnone, this, lookupAL_insertAL, hk]

/-- Claim C7: an input collection containing duplicate names (all views
passing the validator's length check) is not rejected by `prepare`; the
resulting named tensor set maps each name to the view of the last entry
with that name in input order (last write wins). -/
theorem c7_prepare_last_write_wins (d : List CxxStrTensorView) (name : String)
    (hvalid : ∀ t ∈ d, prepareCheck t.value = true)
    (hdup : 2 ≤ (d.filter fun t => t.key == name).length) :
    ∃ m, prepare d = .ok m ∧ lookupAL name m = lastWith name d := by
  refine ⟨prepFold [] d, ?_, ?_⟩
  · exact prepareGo_ok d hvalid []
  · rw [lookupAL_prepFold]
    cases h : lastWith name d <;> simp [lookupAL]

/-- Claim C7, witness: two entries named `"a"`; `prepare` succeeds and the
map holds the second view. -/
theorem c7_prepare_last_write_wins_witness :
    ∃ m,
      prepare [⟨"a", ⟨[], .U8, [7]⟩⟩, ⟨"a", ⟨[], .U8, [9]⟩⟩] = .ok m ∧
        lookupAL "a" m =
          lastWith "a" [⟨"a", ⟨[], .U8, [7]⟩⟩, ⟨"a", ⟨[], .U8, [9]⟩⟩] :=
  c7_prepare_last_write_wins
    [⟨"a", ⟨[], .U8, [7]⟩⟩, ⟨"a", ⟨[], .U8, [9]⟩⟩] "a" (by decide) (by decide)

/-- Claim C6: `make_tensor_view` succeeds iff `data.len()` equals the
exactly computed required byte length (when that length is computable
without overflow), and on any mismatch it fails with `InvalidTensorView`
carrying the dtype, the shape and the actual length. -/
theorem c6_make_tensor_view_exact (dtype : CxxDtype) (shape : List Nat)
    (data : List Nat) (n : Nat)
    (h : specRequiredBytes (dtypeOfCxx dtype) shape = some n) :
    ((make_tensor_view dtype shape data).isOk = true ↔ data.length = n) ∧
    (data.length ≠ n →
      make_tensor_view dtype shape data =
        .error (.InvalidTensorView (dtypeOfCxx dtype) shape data.length)) := by
  constructor
  · constructor
    · intro hok
      by_contra hne
      simp [make_tensor_view, TensorView.new, h, hne, Except.map, Except.isOk,
        Except.toBool] at hok
    · intro he
      simp [make_tensor_view, TensorView.new, h, he, Except.map, Except.isOk,
        Except.toBool]
  · intro hne
    simp [make_tensor_view, TensorView.new, h, hne, Except.map]

/-- Claim C6, witness: dtype F32, shape `[2, 2]` requires exactly 16
bytes; a 16-byte buffer is accepted and a 15-byte buffer fails with
`InvalidTensorView (F32, [2, 2], 15)`. -/
theorem c6_make_tensor_view_exact_witness :
    (((make_tensor_view .F32 [2, 2] (List.replicate 16 0)).isOk = true ↔
        (List.replicate 16 (0 : Nat)).length = 16) ∧
      ((List.replicate 16 (0 : Nat)).length ≠ 16 →
        make_tensor_view .F32 [2, 2] (List.replicate 16 0) =
          .error (.InvalidTensorView .F32 [2, 2]
            (List.replicate 16 (0 : Nat)).length))) ∧
    make_tensor_view .F32 [2, 2] (List.replicate 15 0) =
      .error (.InvalidTensorView .F32 [2, 2] 15) :=
  ⟨c6_make_tensor_view_exact .F32 [2, 2] (List.replicate 16 0) 16 (by decide),
    (c6_make_tensor_view_exact .F32 [2, 2] (List.replicate 15 0) 16
      (by decide)).2 (by decide)⟩

/-- Claim C4 (code bug): the spec requires `prepare` to accept a sub-byte
view iff `data.len() = ceil(element_count * bit_size / 8)` — for a 4-bit
dtype with shape `[3]` that is 2 bytes — but the code computes
`product(shape) * dtype.size()` with a per-element byte size and no
ceiling over total bits: it rejects the spec-required 2-byte buffer
(and the 1-byte buffer) and instead accepts a 3-byte buffer. -/
theorem c4_prepare_subbyte_divergence :
    specRequiredBytes .F4 [3] = some 2 ∧
    prepare [⟨"x", ⟨[3], .F4, [0, 0]⟩⟩] =
      .error (.InvalidTensorView .F4 [3] 2) ∧
    prepare [⟨"x", ⟨[3], .F4, [0]⟩⟩] =
      .error (.InvalidTensorView .F4 [3] 1) ∧
    (prepare [⟨"x", ⟨[3], .F4, [0, 0, 0]⟩⟩]).isOk = true := by
  refine ⟨by decide, by rfl, by rfl, by rfl⟩

/-- Claim C5 (code bug): the spec requires a shape whose element count
overflows the addressable range to fail with `ValidationOverflow`, but
`prepare` computes the product with wrapping arithmetic: for shape
`[2^32, 2^32]` (element count `2^64`) the product wraps to 0, the length
check passes for an empty buffer, and `prepare` accepts the view. -/
theorem c5_prepare_overflow_divergence :
    checkedProduct [4294967296, 4294967296] = none ∧
    rustProduct [4294967296, 4294967296] = 0 ∧
    prepare [⟨"t", ⟨[4294967296, 4294967296], .U8, []⟩⟩] =
      .ok [("t", ⟨[4294967296, 4294967296], .U8, []⟩)] := by
  refine ⟨by decide, by decide, by rfl⟩

/-- Lexicographic comparison of character lists by code point (the order
used for the spec's documented lexicographic-by-name output policy). -/
def lexLe : List Char → List Char → Bool
  | [], _ => true
  | _ :: _, [] => false
  | a :: as, b :: bs =>
    if a.toNat < b.toNat then true
    else if b.toNat < a.toNat then false
    else lexLe as bs

/-- Lexicographic comparison of strings by code point. -/
def strLe (a b : String) : Bool :=
  lexLe a.data b.data

/-- The propositional form of `strLe`. -/
def StrLE (a b : String) : Prop :=
  strLe a b = true

instance : DecidableRel StrLE :=
  fun a b => inferInstanceAs (Decidable (strLe a b = true))

theorem lexLe_total (as bs : List Char) :
    lexLe as bs = true ∨ lexLe bs as = true := by
  induction as generalizing bs with
  | nil => left; rfl
  | cons a as ih =>
    cases bs with
    | nil => right; rfl
    | cons b bs =>
      rcases Nat.lt_trichotomy a.toNat b.toNat with h | h | h
      · left; simp [lexLe, h]
      · have h1 : ¬ a.toNat < b.toNat := by omega
        have h2 : ¬ b.toNat < a.toNat := by omega
        rcases ih bs with hl | hr
        · left; simp [lexLe, h1, h2, hl]
        · right; simp [lexLe, h1, h2, hr]
      · right; simp [lexLe, h]

theorem lexLe_trans (as bs cs : List Char) (h1 : lexLe as bs = true)
    (h2 : lexLe bs cs = true) : lexLe as cs = true := by
  induction as generalizing bs cs with
  | nil => rfl
  | cons a as ih =>
    cases bs with
    | nil => simp [lexLe] at h1
    | cons b bs =>
      cases cs with
      | nil => simp [lexLe] at h2
      | cons c cs =>
        simp only [lexLe] at h1 h2 ⊢
        rcases Nat.lt_trichotomy a.toNat b.toNat with hab | hab | hab
        · rcases Nat.lt_trichotomy b.toNat c.toNat with hbc | hbc | hbc
          · have : a.toNat < c.toNat := by omega
            simp [this]
          · have : a.toNat < c.toNat := by omega
            simp [this]
          · have hb1 : ¬ b.toNat < c.toNat := by omega
            simp [hb1, hbc] at h2
        · rcases Nat.lt_trichotomy b.toNat c.toNat with hbc | hbc | hbc
          · have : a.toNat < c.toNat := by omega
            simp [this]
          · have h1' : ¬ a.toNat < b.toNat := by omega
            have h2' : ¬ b.toNat < a.toNat := by omega
            have h3 : ¬ a.toNat < c.toNat := by omega
            have h4 : ¬ c.toNat < a.toNat := by omega
            have h5 : ¬ b.toNat < c.toNat := by omega
            have h6 : ¬ c.toNat < b.toNat := by omega
            simp [h1', h2'] at h1
            simp [h5, h6] at h2
            simp [h3, h4]
            exact ih bs cs h1 h2
          · have hb1 : ¬ b.toNat < c.toNat := by omega
            simp [hb1, hbc] at h2
        · have ha1 : ¬ a.toNat < b.toNat := by omega
          simp [ha1, hab] at h1

theorem lexLe_antisymm (as bs : List Char) (h1 : lexLe as bs = true)
    (h2 : lexLe bs as = true) : as = bs := by
  induction as generalizing bs with
  | nil =>
    cases bs with
    | nil => rfl
    | cons b bs => simp [lexLe] at h2
  | cons a as ih =>
    cases bs with
    | nil => simp [lexLe] at h1
    | cons b bs =>
      simp only [lexLe] at h1 h2
      rcases Nat.lt_trichotomy a.toNat b.toNat with hab | hab | hab
      · have hb1 : ¬ b.toNat < a.toNat := by omega
        simp [hb1, hab] at h2
      · have h1' : ¬ a.toNat < b.toNat := by omega
        have h2' : ¬ b.toNat < a.toNat := by omega
        simp [h1', h2'] at h1 h2
        have hchar : a = b := Char.eq_of_val_eq (by
          apply UInt32.eq_of_val_eq
          apply Fin.eq_of_val_eq
          exact hab)
        rw [hchar, ih bs h1 h2]
      · have ha1 : ¬ a.toNat < b.toNat := by omega
        simp [ha1, hab] at h1

instance : IsTrans String StrLE :=
  ⟨fun a b c h1 h2 => lexLe_trans a.data b.data c.data h1 h2⟩

instance : IsTotal String StrLE :=
  ⟨fun a b => lexLe_total a.data b.data⟩

instance : IsAntisymm String StrLE :=
  ⟨fun a b h1 h2 => by
    have := lexLe_antisymm a.data b.data h1 h2
    cases a
    cases b
    exact congrArg String.mk this⟩

/-- An opening brace as a string. -/
def lbrace : String :=
  (Char.ofNat 123).toString

/-- A closing brace as a string. -/
def rbrace : String :=
  (Char.ofNat 125).toString

/-- JSON escaping of one character (quote and backslash). -/
def jsonEscapeChar (c : Char) : String :=
  if c = '"' ∨ c = '\\' then "\\" ++ c.toString else c.toString

/-- A JSON string literal. -/
def jsonStr (s : String) : String :=
  "\"" ++ String.join (s.data.map jsonEscapeChar) ++ "\""

/-- A JSON array of numbers. -/
def renderNatList (l : List Nat) : String :=
  "[" ++ String.intercalate "," (l.map Nat.repr) ++ "]"

/-- A compact JSON object from rendered (key, value) entries. -/
def renderObj (entries : List (String × String)) : String :=
  lbrace ++
    String.intercalate "," (entries.map fun p => jsonStr p.1 ++ ":" ++ p.2) ++
    rbrace

/-- The 8-byte little-endian encoding of a `u64`. -/
def u64le (n : Nat) : List Nat :=
  [n % 256, n / 256 % 256, n / 256 ^ 2 % 256, n / 256 ^ 3 % 256,
    n / 256 ^ 4 % 256, n / 256 ^ 5 % 256, n / 256 ^ 6 % 256,
    n / 256 ^ 7 % 256]

/-- The bytes of a header string (code points; headers emitted by the
model are ASCII). -/
def strBytes (s : String) : List Nat :=
  s.data.map Char.toNat

/-- The map built by `convert_to_hashmap_string` (`lib.rs` lines
181-184): fold the (key, value) pairs into the hash map. -/
def strMapOf (dict : List CxxStrStr) : List (String × String) :=
  dict.foldl (fun m it => insertAL m it.key it.value) []

/-- `convert_to_hashmap_string` (`lib.rs` lines 180-186): builds the
metadata map and always wraps it in `Some`, even for an empty input. -/
def convert_to_hashmap_string (dict : List CxxStrStr) :
    Except SafeTensorError (Option (List (String × String))) :=
  .ok (some (strMapOf dict))

/-- Modelled from the spec: the `__metadata__` header entry — present
exactly when a metadata map is given, holding the string map as a JSON
object; omitted entirely when the metadata is absent. -/
def metaEntries : Option (List (String × String)) → List (String × String)
  | none => []
  | some mm => [("__metadata__", renderObj (mm.map fun p => (p.1, jsonStr p.2)))]

/-- Modelled from the spec: one tensor's header entry
`name ↦ (dtype, shape, data_offsets [begin, end))`. -/
def tensorEntry (name : String) (v : CxxTensorView) (b e : Nat) :
    String × String :=
  (name, renderObj [("dtype", jsonStr (dtypeOfCxx v.dtype_).name),
    ("shape", renderNatList v.shape_),
    ("data_offsets", renderNatList [b, e])])

/-- Modelled from the spec: the engine's validation-and-offset walk over
the tensors in the chosen order: re-validates each view's exact byte
length (checked arithmetic, `ValidationOverflow` on overflow,
`InvalidTensorView` on mismatch), accumulates the running byte cursor
with a checked add, and collects the header entries and the concatenated
payload. -/
def engineGo (m : List (String × CxxTensorView)) :
    List String → Nat →
      Except SafeTensorError (List (String × String) × List Nat)
  | [], _ => .ok ([], [])
  | n :: rest, cursor =>
    match lookupAL n m with
    | none => .error (.TensorNotFound n)
    | some v =>
      match specRequiredBytes (dtypeOfCxx v.dtype_) v.shape_ with
      | none => .error .ValidationOverflow
      | some req =>
        if v.data_len = req then
          if cursor + v.data_len < USIZE then
            match engineGo m rest (cursor + v.data_len) with
            | .error e => .error e
            | .ok (entries, payload) =>
              .ok (tensorEntry n v cursor (cursor + v.data_len) :: entries,
                v.data_ ++ payload)
          else .error .ValidationOverflow
        else
          .error (.InvalidTensorView (dtypeOfCxx v.dtype_) v.shape_ v.data_len)

/-- Modelled from the spec: the deterministic output order over tensor
names — lexicographic by name (the documented policy). -/
def sortedNames (m : List (String × CxxTensorView)) : List String :=
  List.insertionSort StrLE (m.map fun p => p.1)

/-- Modelled from the spec: the header entry list (the optional
`__metadata__` entry followed by the per-tensor entries in lexicographic
name order) and the payload of a serialization. -/
def engineSerializeParts (m : List (String × CxxTensorView))
    (meta : Option (List (String × String))) :
    Except SafeTensorError (List (String × String) × List Nat) :=
  match engineGo m (sortedNames m) 0 with
  | .error e => .error e
  | .ok (entries, payload) => .ok (metaEntries meta ++ entries, payload)

/-- Modelled from the spec: the engine entry point
`safetensors::tensor::serialize` — validate, order, build the JSON
header, and emit the 8-byte little-endian header length, the header
bytes, and the concatenated payload. -/
def engineSerialize (m : List (String × CxxTensorView))
    (meta : Option (List (String × String))) :
    Except SafeTensorError (List Nat) :=
  match engineSerializeParts m meta with
  | .error e => .error e
  | .ok (entries, payload) =>
    .ok (u64le (strBytes (renderObj entries)).length ++
      strBytes (renderObj entries) ++ payload)

/-- `serialize` (`lib.rs` lines 196-205): prepare the tensors, convert
the metadata, and call the engine; each Rust `expect` (panic on error) is
embedded as the exceptional outcome carrying the unwrapped error. -/
def serialize (data : List CxxStrTensorView) (data_info : List CxxStrStr) :
    Except SafeTensorError (List Nat) :=
  match prepare data with
  | .error e => .error e
  | .ok tensors =>
    match convert_to_hashmap_string data_info with
    | .error e => .error e
    | .ok meta => engineSerialize tensors meta

/-- Claim C3, counterexample: through this entry point the caller can
only supply metadata as a (possibly empty) vector; with no metadata
supplied (the empty vector) the produced header is exactly the JSON
object holding a `__metadata__` key with an empty object — the key is
not omitted. -/
theorem c3_counterexample_metadata_key_present :
    serialize [] [] =
      .ok (u64le (strBytes (renderObj [("__metadata__", renderObj [])])).length ++
        strBytes (renderObj [("__metadata__", renderObj [])]) ++ []) ∧
    convert_to_hashmap_string [] = .ok (some []) := by
  exact ⟨rfl, rfl⟩

/-- Claim C3, amended: `convert_to_hashmap_string` always returns
`Some(map)` (the glue cannot express absent metadata), so every
successful serialization carries a `__metadata__` header entry; an empty
caller-supplied metadata vector yields `__metadata__` holding the empty
JSON object.  Absent and empty metadata are not distinguished by this
entry point. -/
theorem c3_amended_metadata_always_present :
    (∀ info : List CxxStrStr,
      convert_to_hashmap_string info = .ok (some (strMapOf info))) ∧
    (∀ (m : List (String × CxxTensorView)) (mm : List (String × String))
        (es : List (String × String)) (payload : List Nat),
      engineSerializeParts m (some mm) = .ok (es, payload) →
        "__metadata__" ∈ es.map Prod.fst) ∧
    metaEntries (some []) = [("__metadata__", renderObj [])] := by
  refine ⟨fun info => rfl, ?_, rfl⟩
  intro m mm es payload h
  unfold engineSerializeParts at h
  cases hgo : engineGo m (sortedNames m) 0 with
  | error e => rw [hgo] at h; cases h
  | ok res =>
    rw [hgo] at h
    cases res with
    | mk entries pl =>
      simp only [Except.ok.injEq, Prod.mk.injEq] at h
      obtain ⟨hes, _⟩ := h
      rw [← hes]
      simp [metaEntries]

/-- Claim C3, witness: the amended theorem applied at the empty tensor
set and empty metadata vector. -/
theorem c3_amended_metadata_always_present_witness :
    "__metadata__" ∈
      ([("__metadata__", renderObj [])] : List (String × String)).map
        Prod.fst :=
  c3_amended_metadata_always_present.2.1 [] [] [("__metadata__", renderObj [])]
    [] rfl

/-- The keys of an association list. -/
def keysOf {α : Type} (m : List (String × α)) : List String :=
  m.map fun p => p.1

theorem keysOf_insertAL_nodup {α : Type} (m : List (String × α)) (k : String)
    (v : α) (h : (keysOf m).Nodup) : (keysOf (insertAL m k v)).Nodup := by
  have hsub : (keysOf (m.filter fun p => !(p.1 == k))).Nodup := by
    have h1 : (m.filter fun p => !(p.1 == k)).Sublist m := List.filter_sublist m
    exact List.Nodup.sublist (h1.map _) h
  refine List.Nodup.cons ?_ hsub
  intro hk
  obtain ⟨p, hp, hpk⟩ := List.mem_map.mp hk
  have := List.of_mem_filter hp
  rw [hpk] at this
  simp at this

theorem lookupAL_prepare (d : List CxxStrTensorView) (k : String) :
    lookupAL k (prepFold [] d) = lastWith k d := by
  rw [lookupAL_prepFold]
  cases lastWith k d <;> simp [lookupAL]

theorem lastWith_eq_none_of_not_mem (name : String)
    (d : List CxxStrTensorView) (h : name ∉ d.map fun t => t.key) :
    lastWith name d = none := by
  induction d with
  | nil => rfl
  | cons t rest ih =>
    have h1 : t.key ≠ name := by
      intro hc; exact h (by simp [hc])
    have h2 : name ∉ rest.map fun t => t.key := by
      intro hc; exact h (by simp [hc])
    have : ¬ (t.key == name) = true := by simp [h1]
    simp [lastWith, ih h2, this]

theorem lastWith_of_mem_nodup (d : List CxxStrTensorView)
    (hnd : (d.map fun t => t.key).Nodup) (t : CxxStrTensorView) (ht : t ∈ d) :
    lastWith t.key d = some t.value := by
  induction d with
  | nil => cases ht
  | cons t0 rest ih =>
    rcases List.mem_cons.mp ht with heq | hmem
    · subst heq
      have hnotin : t.key ∉ rest.map fun t => t.key := by
        have := List.nodup_cons.mp hnd
        exact this.1
      simp [lastWith, lastWith_eq_none_of_not_mem t.key rest hnotin]
    · have hrest : (rest.map fun t => t.key).Nodup :=
        (List.nodup_cons.mp hnd).2
      simp [lastWith, ih hrest hmem]

theorem lastWith_some_mem (name : String) (d : List CxxStrTensorView)
    (v : CxxTensorView) (h : lastWith name d = some v) :
    ∃ t, t ∈ d ∧ t.key = name ∧ t.value = v := by
  induction d with
  | nil => cases h
  | cons t0 rest ih =>
    simp only [lastWith] at h
    cases hl : lastWith name rest with
    | some w =>
      rw [hl] at h
      obtain ⟨t, ht, hk, hv⟩ := ih (hl.trans (by injection h with h; rw [h]))
      exact ⟨t, by simp [ht], hk, hv⟩
    | none =>
      rw [hl] at h
      by_cases hk : (t0.key == name) = true
      · rw [if_pos hk] at h
        injection h with h
        exact ⟨t0, by simp, by simpa using hk, h⟩
      · rw [if_neg hk] at h
        cases h

theorem lookupAL_isSome_iff_mem {α : Type} (k : String)
    (m : List (String × α)) :
    (lookupAL k m).isSome = true ↔ k ∈ keysOf m := by
  induction m with
  | nil => simp [lookupAL, keysOf]
  | cons p rest ih =>
    by_cases hp : p.1 = k
    · simp [lookupAL, hp, keysOf]
    · have h2 : ¬ k = p.1 := fun hc => hp hc.symm
      have hk : keysOf (p :: rest) = p.1 :: keysOf rest := rfl
      rw [hk, List.mem_cons]
      simp only [lookupAL, if_neg hp]
      rw [ih]
      constructor
      · intro h; right; exact h
      · rintro (h | h)
        · exact absurd h h2
        · exact h

theorem prepFold_eq_of_nodup (d : List CxxStrTensorView) :
    ∀ m : List (String × CxxTensorView),
      (∀ t ∈ d, t.key ∉ keysOf m) → (d.map fun t => t.key).Nodup →
      prepFold m d = (d.map fun t => (t.key, t.value)).reverse ++ m := by
  induction d with
  | nil => intro m _ _; rfl
  | cons t rest ih =>
    intro m hdisj hnd
    have hstep : prepFold m (t :: rest) =
        prepFold (insertAL m t.key t.value) rest := rfl
    have hfilter : m.filter (fun p => !(p.1 == t.key)) = m := by
      apply List.filter_eq_self.mpr
      intro p hp
      have : p.1 ≠ t.key := by
        intro hc
        exact hdisj t (by simp) (by rw [← hc]; exact List.mem_map_of_mem _ hp)
      simp [this]
    have hins : insertAL m t.key t.value = (t.key, t.value) :: m := by
      simp [insertAL, hfilter]
    have hdisj' : ∀ t' ∈ rest, t'.key ∉ keysOf ((t.key, t.value) :: m) := by
      intro t' ht' hc
      rcases List.mem_cons.mp hc with hc1 | hc2
      · have := (List.nodup_cons.mp hnd).1
        exact this (by rw [← hc1]; exact List.mem_map_of_mem _ ht')
      · exact hdisj t' (by simp [ht']) hc2
    have hnd' : (rest.map fun t => t.key).Nodup := (List.nodup_cons.mp hnd).2
    rw [hstep, hins, ih ((t.key, t.value) :: m) hdisj' hnd']
    simp

theorem keysOf_prepare_nodup (d : List CxxStrTensorView)
    (hnd : (d.map fun t => t.key).Nodup) :
    (keysOf (prepFold [] d)).Nodup := by
  rw [prepFold_eq_of_nodup d [] (by simp [keysOf]) hnd]
  simp only [List.append_nil, keysOf, List.map_reverse, List.map_map]
  exact (List.nodup_reverse).mpr (by simpa using hnd)

theorem sum_lens_keys (m : List (String × CxxTensorView))
    (hnd : (keysOf m).Nodup) :
    ((keysOf m).map fun n =>
      ((lookupAL n m).map CxxTensorView.data_len).getD 0).sum =
    (m.map fun p => p.2.data_len).sum := by
  induction m with
  | nil => rfl
  | cons p rest ih =>
    have hnotin : p.1 ∉ keysOf rest := (List.nodup_cons.mp hnd).1
    have hrest : (keysOf rest).Nodup := (List.nodup_cons.mp hnd).2
    have hhead : lookupAL p.1 (p :: rest) = some p.2 := by
      simp [lookupAL]
    have hcongr : (keysOf rest).map (fun n =>
        ((lookupAL n (p :: rest)).map CxxTensorView.data_len).getD 0) =
      (keysOf rest).map (fun n =>
        ((lookupAL n rest).map CxxTensorView.data_len).getD 0) := by
      apply List.map_congr_left
      intro n hn
      have : ¬ p.1 = n := by
        intro hc; rw [hc] at hnotin; exact hnotin hn
      simp [lookupAL, this]
    have hk : keysOf (p :: rest) = p.1 :: keysOf rest := rfl
    rw [hk]
    simp only [List.map_cons, List.sum_cons, hhead, hcongr, ih hrest]
    rfl

theorem prepareGo_error_first (d : List CxxStrTensorView)
    (t : CxxStrTensorView)
    (hfind : d.find? (fun t => !(prepareCheck t.value)) = some t) :
    ∀ m, prepareGo m d = .error (.InvalidTensorView
      (dtypeOfCxx t.value.dtype_) t.value.shape_ t.value.data_len) := by
  induction d with
  | nil => cases hfind
  | cons t0 rest ih =>
    intro m
    by_cases hc : prepareCheck t0.value = true
    · have h1 : (!(prepareCheck t0.value)) = false := by simp [hc]
      rw [List.find?_cons, h1] at hfind
      simp [prepareGo, hc, ih hfind]
    · have hcf : prepareCheck t0.value = false := by
        cases h : prepareCheck t0.value
        · rfl
        · exact absurd h hc
      have h1 : (!(prepareCheck t0.value)) = true := by simp [hcf]
      rw [List.find?_cons, h1] at hfind
      injection hfind with hfind
      subst hfind
      simp [prepareGo, hcf]

theorem engineGo_ok (m : List (String × CxxTensorView))
    (hm : ∀ n v, lookupAL n m = some v →
      specRequiredBytes (dtypeOfCxx v.dtype_) v.shape_ = some v.data_len) :
    ∀ (names : List String) (cursor : Nat),
      (∀ n ∈ names, n ∈ keysOf m) →
      cursor + (names.map fun n =>
        ((lookupAL n m).map CxxTensorView.data_len).getD 0).sum < USIZE →
      ∃ res, engineGo m names cursor = .ok res := by
  intro names
  induction names with
  | nil => intro cursor _ _; exact ⟨([], []), rfl⟩
  | cons n rest ih =>
    intro cursor hmem hsum
    have hn : n ∈ keysOf m := hmem n (by simp)
    obtain ⟨v, hv⟩ := Option.isSome_iff_exists.mp
      ((lookupAL_isSome_iff_mem n m).mpr hn)
    have hspec := hm n v hv
    have hlen : ((lookupAL n m).map CxxTensorView.data_len).getD 0 =
        v.data_len := by rw [hv]; rfl
    rw [List.map_cons, List.sum_cons, hlen] at hsum
    have hcursor : cursor + v.data_len < USIZE := by omega
    obtain ⟨res, hres⟩ := ih (cursor + v.data_len)
      (fun n' hn' => hmem n' (by simp [hn'])) (by omega)
    cases res with
    | mk entries payload =>
      refine ⟨(tensorEntry n v cursor (cursor + v.data_len) :: entries,
        v.data_ ++ payload), ?_⟩
      simp [engineGo, hv, hspec, hcursor, hres]

/-- Claim C1, amended: if any entry fails the validator's length check,
`serialize` fails with `InvalidTensorView` for the first such entry and
produces no bytes; if every entry passes both the glue length check and
the spec's exact byte requirement, with distinct names and total payload
within the address range, `serialize` returns the full byte sequence.
(As stated the claim fails for sub-byte dtypes, where the glue check
diverges from the spec requirement.) -/
theorem c1_serialize_fail_fast_or_full (d : List CxxStrTensorView)
    (info : List CxxStrStr) :
    (∀ t, d.find? (fun t => !(prepareCheck t.value)) = some t →
      serialize d info = .error (.InvalidTensorView
        (dtypeOfCxx t.value.dtype_) t.value.shape_ t.value.data_len)) ∧
    ((∀ t ∈ d, prepareCheck t.value = true) →
      (∀ t ∈ d, specRequiredBytes (dtypeOfCxx t.value.dtype_) t.value.shape_ =
        some t.value.data_len) →
      (d.map fun t => t.key).Nodup →
      (d.map fun t => t.value.data_len).sum < USIZE →
      ∃ bs, serialize d info = .ok bs) := by
  constructor
  · intro t hfind
    have := prepareGo_error_first d t hfind []
    simp [serialize, prepare, this]
  · intro hvalid hspec hnd hsum
    have hprep : prepare d = .ok (prepFold [] d) := prepareGo_ok d hvalid []
    set m := prepFold [] d with hm
    have hlook : ∀ n v, lookupAL n m = some v →
        specRequiredBytes (dtypeOfCxx v.dtype_) v.shape_ = some v.data_len := by
      intro n v hv
      rw [hm, lookupAL_prepare] at hv
      obtain ⟨t, ht, _, hval⟩ := lastWith_some_mem n d v hv
      rw [← hval]
      exact hspec t ht
    have hknd : (keysOf m).Nodup := keysOf_prepare_nodup d hnd
    have hperm : sortedNames m |>.Perm (keysOf m) :=
      List.perm_insertionSort StrLE (keysOf m)
    have hmem : ∀ n ∈ sortedNames m, n ∈ keysOf m :=
      fun n hn => hperm.mem_iff.mp hn
    have hsum2 : ((sortedNames m).map fun n =>
        ((lookupAL n m).map CxxTensorView.data_len).getD 0).sum =
      (m.map fun p => p.2.data_len).sum := by
      rw [(hperm.map _).sum_eq, sum_lens_keys m hknd]
    have hmsum : (m.map fun p => p.2.data_len).sum =
        (d.map fun t => t.value.data_len).sum := by
      rw [hm, prepFold_eq_of_nodup d [] (by simp [keysOf]) hnd]
      simp only [List.append_nil, List.map_reverse, List.sum_reverse,
        List.map_map]
      rfl
    obtain ⟨res, hres⟩ := engineGo_ok m hlook (sortedNames m) 0 hmem
      (by rw [hsum2, hmsum]; simpa using hsum)
    cases res with
    | mk entries payload =>
      refine ⟨u64le (strBytes (renderObj (metaEntries (some (strMapOf info)) ++
        entries))).length ++
        strBytes (renderObj (metaEntries (some (strMapOf info)) ++ entries)) ++
        payload, ?_⟩
      simp [serialize, hprep, convert_to_hashmap_string, engineSerialize,
        engineSerializeParts, hres]

/-- Claim C1, witness: a 15-byte buffer for an F32 `[2, 2]` tensor makes
`serialize` fail with `InvalidTensorView` and produce no bytes, while a
valid scalar F32 tensor serializes to a full byte sequence. -/
theorem c1_serialize_fail_fast_or_full_witness :
    serialize [⟨"b", ⟨[2, 2], .F32, List.replicate 15 0⟩⟩] [] =
      .error (.InvalidTensorView .F32 [2, 2] 15) ∧
    ∃ bs, serialize [⟨"w", ⟨[], .F32, [1, 2, 3, 4]⟩⟩] [] = .ok bs :=
  ⟨(c1_serialize_fail_fast_or_full
      [⟨"b", ⟨[2, 2], .F32, List.replicate 15 0⟩⟩] []).1
      ⟨"b", ⟨[2, 2], .F32, List.replicate 15 0⟩⟩ (by decide),
    (c1_serialize_fail_fast_or_full [⟨"w", ⟨[], .F32, [1, 2, 3, 4]⟩⟩] []).2
      (by decide) (by decide) (by decide) (by decide)⟩

/-- Claim C1, counterexample: a spec-valid input (4-bit dtype, shape
`[3]`, the spec-required 2-byte buffer) on which `serialize` fails
instead of returning the full byte sequence. -/
theorem c1_counterexample_subbyte_valid_rejected :
    specRequiredBytes .F4 [3] = some 2 ∧
    serialize [⟨"a", ⟨[3], .F4, [0, 0]⟩⟩] [] =
      .error (.InvalidTensorView .F4 [3] 2) :=
  ⟨by decide, rfl⟩

theorem engineGo_congr (m₁ m₂ : List (String × CxxTensorView))
    (h : ∀ k, lookupAL k m₁ = lookupAL k m₂) :
    ∀ (names : List String) (cursor : Nat),
      engineGo m₁ names cursor = engineGo m₂ names cursor := by
  intro names
  induction names with
  | nil => intro cursor; rfl
  | cons n rest ih =>
    intro cursor
    simp only [engineGo, h n]
    split
    · rfl
    · split
      · rfl
      · split
        · split
          · rw [ih]
          · rfl
        · rfl

theorem lastWith_perm (d₁ d₂ : List CxxStrTensorView) (hperm : d₁.Perm d₂)
    (hnd : (d₁.map fun t => t.key).Nodup) (k : String) :
    lastWith k d₁ = lastWith k d₂ := by
  have hnd₂ : (d₂.map fun t => t.key).Nodup := (hperm.map _).nodup hnd
  cases h₁ : lastWith k d₁ with
  | some v =>
    obtain ⟨t, ht, hk, hv⟩ := lastWith_some_mem k d₁ v h₁
    have ht₂ : t ∈ d₂ := hperm.mem_iff.mp ht
    have := lastWith_of_mem_nodup d₂ hnd₂ t ht₂
    rw [hk, hv] at this
    exact this.symm
  | none =>
    cases h₂ : lastWith k d₂ with
    | none => rfl
    | some v =>
      obtain ⟨t, ht, hk, hv⟩ := lastWith_some_mem k d₂ v h₂
      have ht₁ : t ∈ d₁ := hperm.mem_iff.mpr ht
      have := lastWith_of_mem_nodup d₁ hnd t ht₁
      rw [hk, hv] at this
      rw [this] at h₁
      cases h₁

theorem sortedNames_eq_of_lookupAL_eq (m₁ m₂ : List (String × CxxTensorView))
    (hnd₁ : (keysOf m₁).Nodup) (hnd₂ : (keysOf m₂).Nodup)
    (h : ∀ k, lookupAL k m₁ = lookupAL k m₂) :
    sortedNames m₁ = sortedNames m₂ := by
  have hmem : ∀ k, k ∈ keysOf m₁ ↔ k ∈ keysOf m₂ := by
    intro k
    rw [← lookupAL_isSome_iff_mem, ← lookupAL_isSome_iff_mem, h k]
  have hkperm : (keysOf m₁).Perm (keysOf m₂) :=
    (List.perm_ext_iff_of_nodup hnd₁ hnd₂).mpr hmem
  have hp : (sortedNames m₁).Perm (sortedNames m₂) :=
    ((List.perm_insertionSort StrLE (keysOf m₁)).trans hkperm).trans
      (List.perm_insertionSort StrLE (keysOf m₂)).symm
  exact List.eq_of_perm_of_sorted hp
    (List.sorted_insertionSort StrLE (keysOf m₁))
    (List.sorted_insertionSort StrLE (keysOf m₂))

/-- Claim C2: two calls to `serialize` with the same logical tensor set
(same names, shapes, dtypes, bytes — here: one input a permutation of the
other, names distinct, all views passing the validator) and the same
metadata produce identical byte sequences regardless of the caller's
supply order; and the output order over tensor names is lexicographic
(the name list every serialization walks is sorted by `StrLE`). -/
theorem c2_serialize_deterministic (d₁ d₂ : List CxxStrTensorView)
    (info : List CxxStrStr) (hperm : d₁.Perm d₂)
    (hnd : (d₁.map fun t => t.key).Nodup)
    (hvalid : ∀ t ∈ d₁, prepareCheck t.value = true) :
    serialize d₁ info = serialize d₂ info ∧
    ∀ m : List (String × CxxTensorView),
      List.Sorted StrLE (sortedNames m) := by
  constructor
  · have hnd₂ : (d₂.map fun t => t.key).Nodup := (hperm.map _).nodup hnd
    have hvalid₂ : ∀ t ∈ d₂, prepareCheck t.value = true :=
      fun t ht => hvalid t (hperm.mem_iff.mpr ht)
    have hprep₁ : prepare d₁ = .ok (prepFold [] d₁) :=
      prepareGo_ok d₁ hvalid []
    have hprep₂ : prepare d₂ = .ok (prepFold [] d₂) :=
      prepareGo_ok d₂ hvalid₂ []
    have hlook : ∀ k,
        lookupAL k (prepFold [] d₁) = lookupAL k (prepFold [] d₂) := by
      intro k
      rw [lookupAL_prepare, lookupAL_prepare]
      exact lastWith_perm d₁ d₂ hperm hnd k
    have hknd₁ : (keysOf (prepFold [] d₁)).Nodup := keysOf_prepare_nodup d₁ hnd
    have hknd₂ : (keysOf (prepFold [] d₂)).Nodup :=
      keysOf_prepare_nodup d₂ hnd₂
    have hnames : sortedNames (prepFold [] d₁) = sortedNames (prepFold [] d₂) :=
      sortedNames_eq_of_lookupAL_eq _ _ hknd₁ hknd₂ hlook
    have hgo : engineGo (prepFold [] d₁) (sortedNames (prepFold [] d₁)) 0 =
        engineGo (prepFold [] d₂) (sortedNames (prepFold [] d₂)) 0 := by
      rw [hnames]
      exact engineGo_congr _ _ hlook (sortedNames (prepFold [] d₂)) 0
    simp [serialize, hprep₁, hprep₂, convert_to_hashmap_string,
      engineSerialize, engineSerializeParts, hgo]
  · intro m
    exact List.sorted_insertionSort StrLE (keysOf m)

/-- Claim C2, witness: the same two tensors supplied in either order
serialize to the same bytes. -/
theorem c2_serialize_deterministic_witness :
    serialize [⟨"b", ⟨[], .U8, [1]⟩⟩, ⟨"a", ⟨[], .U8, [2]⟩⟩] [] =
      serialize [⟨"a", ⟨[], .U8, [2]⟩⟩, ⟨"b", ⟨[], .U8, [1]⟩⟩] [] ∧
    ∀ m : List (String × CxxTensorView),
      List.Sorted StrLE (sortedNames m) :=
  c2_serialize_deterministic [⟨"b", ⟨[], .U8, [1]⟩⟩, ⟨"a", ⟨[], .U8, [2]⟩⟩]
    [⟨"a", ⟨[], .U8, [2]⟩⟩, ⟨"b", ⟨[], .U8, [1]⟩⟩] [] (by decide) (by decide)
    (by decide)

end SafetensorsCpp
